import Mathlib

/-!
Verification of the kv-rs in-memory key/value store (src/src/*.rs) against its
natural-language specification.  The Rust code is shallowly embedded: the
`HashMap<String, Entry>` keyspace becomes an association list with unique keys,
`SystemTime` becomes a `Nat` count of milliseconds since the epoch, `i64`
arithmetic is `Int` with explicit wrapping where the source can overflow, and
the fire-and-forget AOF handoff becomes the list of records an operation
submits to the log handle when one is configured.  Every store operation is a
pure state-passing function returning the response, the new keyspace and the
submitted log records.
-/

set_option maxRecDepth 4096

/-- Embeds `RedisValue` from src/src/types.rs: a tagged value is a scalar
string, a queue (`VecDeque<String>`, head at the front of the list), a member
set (`HashSet<String>`, modelled as a `Finset`), or a hash map (reserved). -/
inductive RedisValue where
  | str : String → RedisValue
  | list : List String → RedisValue
  | set : Finset String → RedisValue
  | hash : List (String × String) → RedisValue
deriving DecidableEq

/-- Embeds `Entry` from src/src/types.rs: a value plus an optional absolute
expiration instant in milliseconds since the epoch. -/
structure Entry where
  value : RedisValue
  expires_at : Option Nat
deriving DecidableEq

namespace Entry

/-- Embeds the `Entry::string` constructor. -/
def string (v : String) (exp : Option Nat) : Entry := ⟨RedisValue.str v, exp⟩

/-- Embeds the `Entry::list` constructor (empty queue). -/
def listE (exp : Option Nat) : Entry := ⟨RedisValue.list [], exp⟩

/-- Embeds the `Entry::set` constructor (empty member set). -/
def setE (exp : Option Nat) : Entry := ⟨RedisValue.set ∅, exp⟩

/-- Embeds `Entry::is_expired`: expired iff the expiration exists and
`SystemTime::now() > exp`, i.e. the instant is strictly before `now`. -/
def is_expired (now : Nat) (e : Entry) : Bool :=
  match e.expires_at with
  | some exp => decide (exp < now)
  | none => false

end Entry

/-- Embeds `RedisError` from src/src/error.rs (the variants the engine and
dispatcher construct). -/
inductive RedisError where
  | invalidCommand : String → RedisError
  | wrongArguments : (command : String) → (expected : String) → (got : Nat) → RedisError
  | invalidType : String → RedisError
  | keyNotFound : String → RedisError
  | notInteger : String → RedisError
  | internal : String → RedisError
deriving DecidableEq

/-- Embeds `Response` from src/src/error.rs. -/
inductive Response where
  | simpleString : String → Response
  | error : RedisError → Response
  | integer : Int → Response
  | bulkString : Option String → Response
  | array : List Response → Response
  | nil : Response

/-- Holds exactly on the `Error` responses (used to state error-atomicity). -/
def Response.isErr : Response → Bool
  | .error _ => true
  | _ => false

/-- Embeds `LogEntry` from the AOF module (src/kvstore/src/aof.rs, the
definition src/src/store.rs imports as `crate::aof::LogEntry`). -/
structure LogEntry where
  op : String
  key : String
  value : Option String
  expires_at_ms : Option Int
deriving DecidableEq

/-- The keyspace `HashMap<String, Entry>`, modelled as an association list
whose keys are unique; insertion updates in place, so list order is an
unobservable refinement of the hash map's bucket order. -/
abbrev KvMap := List (String × Entry)

/-- Embeds `HashMap::get`. -/
def kvLookup (k : String) : KvMap → Option Entry
  | [] => none
  | (k', e) :: rest => if k' = k then some e else kvLookup k rest

/-- Embeds `HashMap::insert`: replaces the entry in place when the key is present,
otherwise appends. -/
def kvInsert (k : String) (e : Entry) : KvMap → KvMap
  | [] => [(k, e)]
  | (k', e') :: rest => if k' = k then (k, e) :: rest else (k', e') :: kvInsert k e rest

/-- Embeds `HashMap::remove` (keys are unique, so dropping every binding of
the key removes exactly the one entry). -/
def kvRemove (k : String) : KvMap → KvMap
  | [] => []
  | (k', e) :: rest => if k' = k then kvRemove k rest else (k', e) :: kvRemove k rest

/-- Wraps a mathematical integer into the two's-complement `i64` range,
modelling release-mode overflow of Rust `i64` addition. -/
def wrapI64 (x : Int) : Int := (x + 2 ^ 63) % 2 ^ 64 - 2 ^ 63

/-- Digit portion of a candidate `i64` literal: everything after an optional
leading sign. -/
def parseI64Digits (s : String) : List Char :=
  match s.toList with
  | c :: rest => if c = '-' ∨ c = '+' then rest else c :: rest
  | [] => []

/-- Sign of a candidate `i64` literal. -/
def parseI64Sign (s : String) : Int :=
  match s.toList with
  | c :: _ => if c = '-' then -1 else 1
  | [] => 1

/-- Value denoted by a candidate `i64` literal, before the range check. -/
def parseI64Val (s : String) : Int :=
  parseI64Sign s
    * ((parseI64Digits s).foldl (fun a c => a * 10 + (c.toNat - 48)) 0 : Nat)

/-- Embeds Rust `str::parse::<i64>`: an optional sign, then one or more ASCII
digits, rejecting anything else and values outside the `i64` range. -/
def parseI64 (s : String) : Option Int :=
  if (parseI64Digits s) = [] then none
  else if (parseI64Digits s).all (fun c => c.isDigit) then
    if -(2 ^ 63) ≤ parseI64Val s ∧ parseI64Val s ≤ 2 ^ 63 - 1 then some (parseI64Val s)
    else none
  else none

/-- Digit portion of a candidate `u64` literal: everything after an optional
leading `+`. -/
def parseU64Digits (s : String) : List Char :=
  match s.toList with
  | c :: rest => if c = '+' then rest else c :: rest
  | [] => []

/-- Embeds Rust `str::parse::<u64>` (body): one or more ASCII digits after an
optional `+`, rejecting anything else and values at or above `2^64`. -/
def parseU64 (s : String) : Option Nat :=
  if (parseU64Digits s) = [] then none
  else if (parseU64Digits s).all (fun c => c.isDigit) then
    let n : Nat := (parseU64Digits s).foldl (fun a c => a * 10 + (c.toNat - 48)) 0
    if n < 2 ^ 64 then some n else none
  else none

/-- Embeds Rust `str::starts_with`, structurally over the character lists. -/
def strStartsWith (s pre : String) : Bool :=
  pre.toList.isPrefixOf s.toList

/-- ASCII uppercase of one character (Rust `to_uppercase` on the ASCII
commands this protocol recognizes). -/
def asciiUpperChar (c : Char) : Char :=
  if 'a' ≤ c ∧ c ≤ 'z' then Char.ofNat (c.toNat - 32) else c

/-- ASCII uppercase of a string. -/
def asciiUpper (s : String) : String :=
  ⟨s.toList.map asciiUpperChar⟩

/-- Worker for `splitTokens`: accumulates the current token in reverse. -/
def splitWSAux : List Char → List Char → List (List Char)
  | [], cur => if cur = [] then [] else [cur.reverse]
  | c :: rest, cur =>
    if c.isWhitespace then
      if cur = [] then splitWSAux rest []
      else cur.reverse :: splitWSAux rest []
    else splitWSAux rest (c :: cur)

/-- Embeds Rust `str::split_whitespace`: maximal runs of non-whitespace
characters, with no empty tokens.  (Leading and trailing whitespace drop out,
so the dispatcher's separate `trim` step is absorbed: the trimmed line is
empty exactly when there are no tokens, and both of those source paths return
the same `empty command` error.) -/
def splitTokens (s : String) : List String :=
  (splitWSAux s.toList []).map (fun cs => ⟨cs⟩)

/-- The `WRONGTYPE` message every cross-type branch of src/src/store.rs uses. -/
def wrongTypeMsg : String :=
  "WRONGTYPE Operation against a key holding the wrong kind of value"

/-- Result of one engine operation: the response, the new keyspace, and the
records the operation submits to the AOF handle when one is configured. -/
structure OpResult where
  resp : Response
  map : KvMap
  log : List LogEntry

namespace Store

/-- Embeds `Store::set` (src/src/store.rs:42): insert the scalar entry with
expiration `now + ttl` when a TTL is given, reply `OK`, log a `set` record. -/
def set (now : Nat) (key value : String) (ttl_secs : Option Nat) (m : KvMap) : OpResult :=
  let expires_at := ttl_secs.map (fun s => now + s * 1000)
  { resp := .simpleString "OK"
    map := kvInsert key (Entry.string value expires_at) m
    log := [⟨"set", key, some value, expires_at.map (fun t => (t : Int))⟩] }

/-- Embeds `Store::get` (src/src/store.rs:60): lazy-expire, then return the
scalar or a `WRONGTYPE` error. -/
def get (now : Nat) (key : String) (m : KvMap) : OpResult :=
  match kvLookup key m with
  | some entry =>
    if entry.is_expired now then ⟨.nil, kvRemove key m, []⟩
    else
      match entry.value with
      | .str s => ⟨.bulkString (some s), m, []⟩
      | _ => ⟨.error (.invalidType wrongTypeMsg), m, []⟩
  | none => ⟨.nil, m, []⟩

/-- Embeds `Store::del` (src/src/store.rs:75): remove the key, reply 1 only
when it was live, and log a `del` record exactly in that case. -/
def del (now : Nat) (key : String) (m : KvMap) : OpResult :=
  match kvLookup key m with
  | some entry =>
    if entry.is_expired now then ⟨.integer 0, kvRemove key m, []⟩
    else ⟨.integer 1, kvRemove key m, [⟨"del", key, none, none⟩]⟩
  | none => ⟨.integer 0, m, []⟩

/-- Embeds `Store::exists` (src/src/store.rs:100). -/
def existsKey (now : Nat) (key : String) (m : KvMap) : OpResult :=
  match kvLookup key m with
  | some entry =>
    if entry.is_expired now then ⟨.integer 0, kvRemove key m, []⟩
    else ⟨.integer 1, m, []⟩
  | none => ⟨.integer 0, m, []⟩

/-- Embeds `Store::ttl` (src/src/store.rs:114): `-2` when absent or expired,
`-1` when no expiration, else the remaining whole seconds; the saturating
`duration_since(..).unwrap_or_default()` becomes truncated `Nat` subtraction. -/
def ttl (now : Nat) (key : String) (m : KvMap) : OpResult :=
  match kvLookup key m with
  | some entry =>
    if entry.is_expired now then ⟨.integer (-2), kvRemove key m, []⟩
    else
      match entry.expires_at with
      | some exp => ⟨.integer (((exp - now) / 1000 : Nat) : Int), m, []⟩
      | none => ⟨.integer (-1), m, []⟩
  | none => ⟨.integer (-2), m, []⟩

/-- Embeds `Store::sweep_locked` (src/src/store.rs:319): drop expired entries. -/
def sweep_locked (now : Nat) (m : KvMap) : KvMap :=
  m.filter (fun p => ¬ p.2.is_expired now)

/-- Embeds `Store::keys_with_prefix` (src/src/store.rs:134), renamed: sweep,
then list the surviving keys that start with the given string. -/
def keysMatching (now : Nat) (pre : String) (m : KvMap) : OpResult :=
  let m2 := sweep_locked now m
  let keys := (m2.map Prod.fst).filter (fun k => strStartsWith k pre)
  if keys.isEmpty then ⟨.array [], m2, []⟩
  else ⟨.array (keys.map (fun k => .bulkString (some k))), m2, []⟩

/-- Embeds `Store::incr` (src/src/store.rs:149).  The source computes
`cur + 1` on `i64` without a checked add, so the embedding wraps (release
semantics; a debug build panics at the same input). -/
def incr (now : Nat) (key : String) (m : KvMap) : OpResult :=
  match kvLookup key m with
  | some entry =>
    if entry.is_expired now then
      let new : Int := 1
      ⟨.integer new, kvInsert key (Entry.string (toString new) none) (kvRemove key m),
        [⟨"set", key, some (toString new), none⟩]⟩
    else
      match entry.value with
      | .str s =>
        match parseI64 s with
        | some cur =>
          let new := wrapI64 (cur + 1)
          ⟨.integer new, kvInsert key ⟨.str (toString new), entry.expires_at⟩ m,
            [⟨"set", key, some (toString new), entry.expires_at.map (fun t => (t : Int))⟩]⟩
        | none => ⟨.error (.notInteger s), m, []⟩
      | _ => ⟨.error (.invalidType wrongTypeMsg), m, []⟩
  | none =>
    let new : Int := 1
    ⟨.integer new, kvInsert key (Entry.string (toString new) none) m,
      [⟨"set", key, some (toString new), none⟩]⟩

/-- Embeds `Store::lpush` (src/src/store.rs:184): `entry(..).or_insert_with`
creates an empty queue for an absent key, an expired entry is replaced by an
empty queue, then each value is pushed to the head in argument order reversed
(`values.iter().rev()` + `push_front`). -/
def lpush (now : Nat) (key : String) (values : List String) (m : KvMap) : OpResult :=
  let entry0 := (kvLookup key m).getD (Entry.listE none)
  let entry1 := if entry0.is_expired now then Entry.listE none else entry0
  match entry1.value with
  | .list l =>
    let l2 := values.reverse.foldl (fun acc v => v :: acc) l
    ⟨.integer l2.length, kvInsert key ⟨.list l2, entry1.expires_at⟩ m, []⟩
  | _ => ⟨.error (.invalidType wrongTypeMsg), m, []⟩

/-- Embeds `Store::lpop` (src/src/store.rs:202): pop the head; when the queue
becomes empty the key is removed. -/
def lpop (now : Nat) (key : String) (m : KvMap) : OpResult :=
  match kvLookup key m with
  | some entry =>
    if entry.is_expired now then ⟨.nil, kvRemove key m, []⟩
    else
      match entry.value with
      | .list l =>
        match l with
        | v :: rest =>
          if rest.isEmpty then ⟨.bulkString (some v), kvRemove key m, []⟩
          else ⟨.bulkString (some v), kvInsert key ⟨.list rest, entry.expires_at⟩ m, []⟩
        | [] => ⟨.nil, m, []⟩
      | _ => ⟨.error (.invalidType wrongTypeMsg), m, []⟩
  | none => ⟨.nil, m, []⟩

/-- Embeds `Store::llen` (src/src/store.rs:226). -/
def llen (now : Nat) (key : String) (m : KvMap) : OpResult :=
  match kvLookup key m with
  | some entry =>
    if entry.is_expired now then ⟨.integer 0, kvRemove key m, []⟩
    else
      match entry.value with
      | .list l => ⟨.integer l.length, m, []⟩
      | _ => ⟨.error (.invalidType wrongTypeMsg), m, []⟩
  | none => ⟨.integer 0, m, []⟩

/-- Embeds `Store::sadd` (src/src/store.rs:244): create or reset the member
set when absent or expired, insert each member, count the newly inserted. -/
def sadd (now : Nat) (key : String) (members : List String) (m : KvMap) : OpResult :=
  let entry0 := (kvLookup key m).getD (Entry.setE none)
  let entry1 := if entry0.is_expired now then Entry.setE none else entry0
  match entry1.value with
  | .set s =>
    let p := members.foldl
      (fun (p : Finset String × Nat) mem =>
        if mem ∈ p.1 then p else (insert mem p.1, p.2 + 1)) (s, 0)
    ⟨.integer p.2, kvInsert key ⟨.set p.1, entry1.expires_at⟩ m, []⟩
  | _ => ⟨.error (.invalidType wrongTypeMsg), m, []⟩

/-- Embeds `Store::srem` (src/src/store.rs:265): remove each present member,
count removals, and delete the key when the set drains. -/
def srem (now : Nat) (key : String) (members : List String) (m : KvMap) : OpResult :=
  match kvLookup key m with
  | some entry =>
    if entry.is_expired now then ⟨.integer 0, kvRemove key m, []⟩
    else
      match entry.value with
      | .set s =>
        let p := members.foldl
          (fun (p : Finset String × Nat) mem =>
            if mem ∈ p.1 then (p.1.erase mem, p.2 + 1) else p) (s, 0)
        if p.1 = ∅ then ⟨.integer p.2, kvRemove key m, []⟩
        else ⟨.integer p.2, kvInsert key ⟨.set p.1, entry.expires_at⟩ m, []⟩
      | _ => ⟨.error (.invalidType wrongTypeMsg), m, []⟩
  | none => ⟨.integer 0, m, []⟩

/-- Embeds `Store::scard` (src/src/store.rs:291). -/
def scard (now : Nat) (key : String) (m : KvMap) : OpResult :=
  match kvLookup key m with
  | some entry =>
    if entry.is_expired now then ⟨.integer 0, kvRemove key m, []⟩
    else
      match entry.value with
      | .set s => ⟨.integer s.card, m, []⟩
      | _ => ⟨.error (.invalidType wrongTypeMsg), m, []⟩
  | none => ⟨.integer 0, m, []⟩

/-- One step of `Store::load_from_aof` (src/src/store.rs:26): a `set` record
with a value inserts a scalar entry (the `i64` millisecond stamp is cast to
`u64` two's-complement style), a `del` record removes the key, and every
other record is ignored. -/
def applyLog (m : KvMap) (e : LogEntry) : KvMap :=
  if e.op = "set" then
    match e.value with
    | some val =>
      kvInsert e.key
        (Entry.string val (e.expires_at_ms.map (fun ms => (ms % (2 ^ 64 : Int)).toNat))) m
    | none => m
  else if e.op = "del" then kvRemove e.key m
  else m

/-- Embeds `Store::load_from_aof` (src/src/store.rs:26): apply the records in
arrival order. -/
def load_from_aof (entries : List LogEntry) (m : KvMap) : KvMap :=
  entries.foldl applyLog m

end Store

/-- Embeds `handle_command` (src/src/protocol.rs): trim, tokenize, uppercase
the command token, enforce arity, and route to the engine.  The engine state
is threaded explicitly; `now` is the instant the engine call observes.  The
source's empty-after-trim check and its empty-token-list check both return
`InvalidCommand "empty command")`; they collapse into the `[]` case here. -/
def handle_command (now : Nat) (m : KvMap) (input : String) : OpResult :=
  let parts := splitTokens input
  match parts with
  | [] => ⟨.error (.invalidCommand "empty command"), m, []⟩
  | cmd0 :: _ =>
      let cmd := asciiUpper cmd0
      let n := parts.length
      if cmd = "PING" then ⟨.simpleString "PONG", m, []⟩
      else if cmd = "QUIT" then ⟨.simpleString "BYE", m, []⟩
      else if cmd = "SET" then
        if n < 3 then ⟨.error (.wrongArguments "SET" "at least 3" n), m, []⟩
        else
          let key := parts.getD 1 ""
          if 5 ≤ n ∧ asciiUpper (parts.getD (n - 2) "") = "EX" then
            match parseU64 (parts.getD (n - 1) "") with
            | none => ⟨.error (.invalidType "invalid EX ttl"), m, []⟩
            | some ttlv =>
              let value := String.intercalate " " ((parts.drop 2).take (n - 4))
              if value.isEmpty then ⟨.error (.invalidType "empty value"), m, []⟩
              else Store.set now key value (some ttlv) m
          else
            let value := String.intercalate " " (parts.drop 2)
            if value.isEmpty then ⟨.error (.invalidType "empty value"), m, []⟩
            else Store.set now key value none m
      else if cmd = "GET" then
        if n ≠ 2 then ⟨.error (.wrongArguments "GET" "1" (n - 1)), m, []⟩
        else Store.get now (parts.getD 1 "") m
      else if cmd = "DEL" then
        if n ≠ 2 then ⟨.error (.wrongArguments "DEL" "1" (n - 1)), m, []⟩
        else Store.del now (parts.getD 1 "") m
      else if cmd = "EXISTS" then
        if n ≠ 2 then ⟨.error (.wrongArguments "EXISTS" "1" (n - 1)), m, []⟩
        else Store.existsKey now (parts.getD 1 "") m
      else if cmd = "TTL" then
        if n ≠ 2 then ⟨.error (.wrongArguments "TTL" "1" (n - 1)), m, []⟩
        else Store.ttl now (parts.getD 1 "") m
      else if cmd = "KEYS" then
        if n ≠ 2 then ⟨.error (.wrongArguments "KEYS" "1" (n - 1)), m, []⟩
        else Store.keysMatching now (parts.getD 1 "") m
      else if cmd = "INCR" then
        if n ≠ 2 then ⟨.error (.wrongArguments "INCR" "1" (n - 1)), m, []⟩
        else Store.incr now (parts.getD 1 "") m
      else if cmd = "LPUSH" then
        if n < 3 then ⟨.error (.wrongArguments "LPUSH" "at least 2" (n - 1)), m, []⟩
        else Store.lpush now (parts.getD 1 "") (parts.drop 2) m
      else if cmd = "LPOP" then
        if n ≠ 2 then ⟨.error (.wrongArguments "LPOP" "1" (n - 1)), m, []⟩
        else Store.lpop now (parts.getD 1 "") m
      else if cmd = "LLEN" then
        if n ≠ 2 then ⟨.error (.wrongArguments "LLEN" "1" (n - 1)), m, []⟩
        else Store.llen now (parts.getD 1 "") m
      else if cmd = "SADD" then
        if n < 3 then ⟨.error (.wrongArguments "SADD" "at least 2" (n - 1)), m, []⟩
        else Store.sadd now (parts.getD 1 "") (parts.drop 2) m
      else if cmd = "SREM" then
        if n < 3 then ⟨.error (.wrongArguments "SREM" "at least 2" (n - 1)), m, []⟩
        else Store.srem now (parts.getD 1 "") (parts.drop 2) m
      else if cmd = "SCARD" then
        if n ≠ 2 then ⟨.error (.wrongArguments "SCARD" "1" (n - 1)), m, []⟩
        else Store.scard now (parts.getD 1 "") m
      else ⟨.error (.invalidCommand cmd), m, []⟩

/-! ### Helper lemmas about the keyspace representation -/

theorem kvLookup_kvInsert_self (k : String) (e : Entry) (m : KvMap) :
    kvLookup k (kvInsert k e m) = some e := by
  induction m with
  | nil => simp [kvInsert, kvLookup]
  | cons p rest ih =>
    by_cases h : p.1 = k
    · simp [kvInsert, kvLookup, h]
    · simp [kvInsert, kvLookup, h, ih]

theorem kvLookup_kvInsert_ne (q k : String) (e : Entry) (m : KvMap) (hqk : q ≠ k) :
    kvLookup q (kvInsert k e m) = kvLookup q m := by
  have hkq : ¬ k = q := fun h => hqk h.symm
  induction m with
  | nil => simp [kvInsert, kvLookup, hkq]
  | cons p rest ih =>
    by_cases h : p.1 = k
    · simp [kvInsert, kvLookup, h, hkq]
    · by_cases h2 : p.1 = q <;> simp [kvInsert, kvLookup, h, h2, hqk, ih]

theorem kvLookup_kvRemove_self (k : String) (m : KvMap) :
    kvLookup k (kvRemove k m) = none := by
  induction m with
  | nil => rfl
  | cons p rest ih =>
    by_cases h : p.1 = k
    · simpa [kvRemove, kvLookup, h] using ih
    · simpa [kvRemove, kvLookup, h] using ih

theorem kvLookup_kvRemove_ne (q k : String) (m : KvMap) (hqk : q ≠ k) :
    kvLookup q (kvRemove k m) = kvLookup q m := by
  induction m with
  | nil => rfl
  | cons p rest ih =>
    by_cases h : p.1 = k
    · have hpq : ¬ p.1 = q := by rw [h]; exact fun h' => hqk h'.symm
      simp [kvRemove, kvLookup, h, hpq, hqk, Ne.symm hqk, ih]
    · by_cases h2 : p.1 = q <;>
        simp [kvRemove, kvLookup, h, h2, hqk, Ne.symm hqk, ih]

/-! ### Helper lemmas about the arithmetic and fold bodies -/

theorem wrapI64_eq_self (x : Int) (h1 : -(2 ^ 63) ≤ x) (h2 : x < 2 ^ 63) :
    wrapI64 x = x := by
  unfold wrapI64
  have h0 : (0 : Int) ≤ x + 2 ^ 63 := by omega
  have hlt : x + 2 ^ 63 < 2 ^ 64 := by omega
  rw [Int.emod_eq_of_lt h0 hlt]
  omega

theorem parseI64_range (s : String) (v : Int) (h : parseI64 s = some v) :
    -(2 ^ 63) ≤ v ∧ v ≤ 2 ^ 63 - 1 := by
  unfold parseI64 at h
  split_ifs at h with h1 h2 h3
  · cases h
    exact h3

theorem sadd_fold_set (ms : List String) (s : Finset String) (c : Nat) :
    (ms.foldl (fun (p : Finset String × Nat) mem =>
        if mem ∈ p.1 then p else (insert mem p.1, p.2 + 1)) (s, c)).1
      = s ∪ ms.toFinset := by
  induction ms generalizing s c with
  | nil => simp
  | cons mem rest ih =>
    by_cases h : mem ∈ s
    · simp only [List.foldl_cons, if_pos h, ih, List.toFinset_cons]
      ext x
      simp only [Finset.mem_union, Finset.mem_insert, List.mem_toFinset]
      constructor <;> intro hx <;> rcases hx with hx | hx <;> try tauto
      rcases hx with rfl | hx <;> tauto
    · simp only [List.foldl_cons, if_neg h, ih, List.toFinset_cons]
      ext x
      simp only [Finset.mem_union, Finset.mem_insert, List.mem_toFinset]
      tauto

theorem sadd_fold_count (ms : List String) (s : Finset String) (c : Nat) :
    (ms.foldl (fun (p : Finset String × Nat) mem =>
        if mem ∈ p.1 then p else (insert mem p.1, p.2 + 1)) (s, c)).2
      = c + (ms.toFinset \ s).card := by
  induction ms generalizing s c with
  | nil => simp
  | cons mem rest ih =>
    by_cases h : mem ∈ s
    · rw [List.foldl_cons, if_pos h, ih]
      have : (mem :: rest).toFinset \ s = rest.toFinset \ s := by
        ext x
        simp only [Finset.mem_sdiff, List.toFinset_cons, Finset.mem_insert, List.mem_toFinset]
        constructor
        · rintro ⟨rfl | hx, hns⟩
          · exact absurd h hns
          · exact ⟨hx, hns⟩
        · tauto
      rw [this]
    · rw [List.foldl_cons, if_neg h, ih]
      have step : (mem :: rest).toFinset \ s = insert mem (rest.toFinset \ s) := by
        ext x
        simp only [Finset.mem_sdiff, List.toFinset_cons, Finset.mem_insert, List.mem_toFinset]
        constructor
        · rintro ⟨rfl | hx, hns⟩
          · exact Or.inl rfl
          · exact Or.inr ⟨hx, hns⟩
        · rintro (rfl | ⟨hx, hns⟩)
          · exact ⟨Or.inl rfl, h⟩
          · exact ⟨Or.inr hx, hns⟩
      have erase_eq : rest.toFinset \ insert mem s = (rest.toFinset \ s).erase mem := by
        ext x
        simp only [Finset.mem_sdiff, Finset.mem_insert, Finset.mem_erase, List.mem_toFinset]
        tauto
      rw [step, erase_eq]
      have hins : insert mem (rest.toFinset \ s)
          = insert mem ((rest.toFinset \ s).erase mem) := by
        ext x
        by_cases hx : x = mem <;> simp [hx]
      have hcard : (insert mem (rest.toFinset \ s)).card
          = ((rest.toFinset \ s).erase mem).card + 1 := by
        rw [hins, Finset.card_insert_of_not_mem (Finset.not_mem_erase mem _)]
      omega

theorem srem_fold_set (ms : List String) (s : Finset String) (c : Nat) :
    (ms.foldl (fun (p : Finset String × Nat) mem =>
        if mem ∈ p.1 then (p.1.erase mem, p.2 + 1) else p) (s, c)).1
      = s \ ms.toFinset := by
  induction ms generalizing s c with
  | nil => simp
  | cons mem rest ih =>
    by_cases h : mem ∈ s
    · rw [List.foldl_cons, if_pos h, ih]
      ext x
      simp only [Finset.mem_sdiff, Finset.mem_erase, List.toFinset_cons, Finset.mem_insert,
        List.mem_toFinset]
      tauto
    · rw [List.foldl_cons, if_neg h, ih]
      ext x
      simp only [Finset.mem_sdiff, List.toFinset_cons, Finset.mem_insert, List.mem_toFinset]
      constructor
      · rintro ⟨hx, hns⟩
        refine ⟨hx, ?_⟩
        rintro (rfl | hmem)
        · exact h hx
        · exact hns hmem
      · tauto

theorem lpush_fold_list (vs l : List String) :
    vs.reverse.foldl (fun acc v => v :: acc) l = vs ++ l := by
  induction vs generalizing l with
  | nil => simp
  | cons v rest ih =>
    simp only [List.reverse_cons, List.foldl_append, List.foldl_cons, List.foldl_nil]
    rw [ih]
    rfl

/-! ### C1: LPUSH ordering -/

/-- C1 counterexample: the claim says that after `LPUSH k a b c` an immediate
`LPOP k` returns `c`; on the code it returns `a`, because `Store::lpush`
iterates the values in reverse and pushes each to the front, which leaves the
arguments in their given order head-to-tail. -/
theorem C1_counterexample :
    (Store.lpop 0 "k" (Store.lpush 0 "k" ["a", "b", "c"] []).map).resp
      = Response.bulkString (some "a") ∧
    Response.bulkString (some "a") ≠ Response.bulkString (some "c") := by
  refine ⟨rfl, ?_⟩
  intro h
  injection h with h1
  injection h1 with h2
  exact absurd h2 (by decide)

/-- C1 (amended): for every key and non-empty value list, `LPUSH k v1 .. vn`
on an absent or expired key produces a queue whose head-to-tail order is
`v1, v2, ..., vn` (the given order), returns the resulting length, and an
immediate `LPOP k` returns `v1`. -/
theorem C1_lpush_order (now : Nat) (k : String) (vs : List String) (m : KvMap)
    (h : kvLookup k m = none ∨ ∃ e, kvLookup k m = some e ∧ e.is_expired now = true) :
    (Store.lpush now k vs m).resp = .integer (vs.length : Int) ∧
    kvLookup k (Store.lpush now k vs m).map = some ⟨.list vs, none⟩ ∧
    (∀ v rest, vs = v :: rest →
      (Store.lpop now k (Store.lpush now k vs m).map).resp = .bulkString (some v)) := by
  have hentry1 : (if ((kvLookup k m).getD (Entry.listE none)).is_expired now
      then Entry.listE none else (kvLookup k m).getD (Entry.listE none))
        = Entry.listE none := by
    rcases h with h1 | ⟨e, he, hex⟩
    · rw [h1]
      rfl
    · rw [he]
      simp only [Option.getD_some]
      rw [if_pos hex]
  have hlp : Store.lpush now k vs m
      = ⟨.integer (vs.length : Int), kvInsert k ⟨.list vs, none⟩ m, []⟩ := by
    simp only [Store.lpush]
    rw [hentry1]
    simp [Entry.listE, lpush_fold_list]
  refine ⟨by rw [hlp], by rw [hlp]; exact kvLookup_kvInsert_self k _ m, ?_⟩
  intro v rest hv
  subst hv
  rw [hlp]
  simp [Store.lpop, kvLookup_kvInsert_self, Entry.is_expired]
  all_goals split <;> rfl

/-- C1 witness: `LPUSH q a b c` on the empty store returns 3, stores the queue
`a, b, c` head-to-tail, and `LPOP q` then returns `a`. -/
theorem C1_lpush_order_witness :
    (Store.lpush 0 "q" ["a", "b", "c"] []).resp = .integer 3 ∧
    kvLookup "q" (Store.lpush 0 "q" ["a", "b", "c"] []).map
      = some ⟨.list ["a", "b", "c"], none⟩ ∧
    (Store.lpop 0 "q" (Store.lpush 0 "q" ["a", "b", "c"] []).map).resp
      = .bulkString (some "a") := by
  have h := C1_lpush_order 0 "q" ["a", "b", "c"] [] (Or.inl rfl)
  exact ⟨h.1, h.2.1, h.2.2 "a" ["b", "c"] rfl⟩

/-! ### C2: INCR overflow -/

/-- C2 (code bug): `INCR` on a live scalar holding the maximal `i64` value
does not return `NotInteger`.  `Store::incr` computes `cur + 1` with an
unchecked `i64` add, so a release build silently wraps to the minimal `i64`
(and stores that string); a debug build panics.  This theorem evaluates the
embedded code at the failing input. -/
theorem C2_incr_overflow_wraps :
    (Store.incr 0 "k" [("k", Entry.string "9223372036854775807" none)]).resp
      = Response.integer (-9223372036854775808) ∧
    kvLookup "k" (Store.incr 0 "k" [("k", Entry.string "9223372036854775807" none)]).map
      = some (Entry.string "-9223372036854775808" none) := by
  exact ⟨rfl, by decide⟩

/-! ### C3: INCR is SET with the successor, TTL preserved -/

/-- C3 counterexample: at `old = 9223372036854775807` the claim says `INCR`
stores the scalar string of `old + 1`; the code instead stores the wrapped
value `"-9223372036854775808"`. -/
theorem C3_counterexample :
    kvLookup "k" (Store.incr 0 "k" [("k", Entry.string "9223372036854775807" none)]).map
      ≠ some (Entry.string "9223372036854775808" none) := by
  decide

/-- C3 (amended): for every key holding a live scalar that parses as a signed
64-bit integer `old` with `old` below the maximal `i64` value, `INCR` stores
the scalar string of `old + 1`, leaves the expiration instant exactly as it
was, and returns `Integer (old + 1)`; and on an absent or expired key `INCR`
returns `Integer 1` and is equivalent (same keyspace, same log record) to
`SET k "1"` with no expiration. -/
theorem C3_incr_set_equiv (now : Nat) (k : String) (m : KvMap) :
    (∀ e s old, kvLookup k m = some e → e.is_expired now = false →
      e.value = RedisValue.str s → parseI64 s = some old → old ≠ 2 ^ 63 - 1 →
      (Store.incr now k m).resp = .integer (old + 1) ∧
      (Store.incr now k m).map
        = kvInsert k ⟨.str (toString (old + 1)), e.expires_at⟩ m ∧
      (kvLookup k (Store.incr now k m).map).map Entry.expires_at
        = some e.expires_at) ∧
    ((kvLookup k m = none ∨ ∃ e, kvLookup k m = some e ∧ e.is_expired now = true) →
      (Store.incr now k m).resp = .integer 1 ∧
      (∀ q, kvLookup q (Store.incr now k m).map
        = kvLookup q (Store.set now k "1" none m).map) ∧
      (Store.incr now k m).log = (Store.set now k "1" none m).log) := by
  constructor
  · intro e s old he hex hval hparse hne
    have hrange := parseI64_range s old hparse
    have hwrap : wrapI64 (old + 1) = old + 1 :=
      wrapI64_eq_self _ (by omega) (by omega)
    have hincr : Store.incr now k m
        = ⟨.integer (old + 1), kvInsert k ⟨.str (toString (old + 1)), e.expires_at⟩ m,
            [⟨"set", k, some (toString (old + 1)), e.expires_at.map (fun t => (t : Int))⟩]⟩ := by
      simp [Store.incr, he, hex, hval, hparse, hwrap]
    refine ⟨by rw [hincr], by rw [hincr], ?_⟩
    rw [hincr]
    simp [kvLookup_kvInsert_self]
  · intro h
    have h1 : toString (1 : Int) = "1" := rfl
    rcases h with hnone | ⟨e, he, hex⟩
    · refine ⟨by simp [Store.incr, hnone], ?_, ?_⟩
      · intro q
        simp [Store.incr, Store.set, hnone, h1, Entry.string]
      · simp [Store.incr, Store.set, hnone, h1]
    · have hincr : Store.incr now k m
          = ⟨.integer 1, kvInsert k (Entry.string "1" none) (kvRemove k m),
              [⟨"set", k, some "1", none⟩]⟩ := by
        simp [Store.incr, he, hex, h1]
      refine ⟨by rw [hincr], ?_, by rw [hincr]; simp [Store.set]⟩
      intro q
      rw [hincr]
      by_cases hq : q = k
      · subst hq
        simp [Store.set, kvLookup_kvInsert_self, Entry.string]
      · simp [Store.set, kvLookup_kvInsert_ne q k _ _ hq, kvLookup_kvRemove_ne q k m hq]

/-- C3 witness: `INCR` on a live scalar `"41"` with a TTL returns 42 and
stores `"42"` with the TTL untouched; `INCR` on the absent key `"c"` returns
1 and agrees with `SET c 1` on the keyspace and the log. -/
theorem C3_incr_set_equiv_witness :
    ((Store.incr 5 "k" [("k", Entry.string "41" (some 7000))]).resp
        = Response.integer 42 ∧
      (kvLookup "k" (Store.incr 5 "k" [("k", Entry.string "41" (some 7000))]).map).map
          Entry.expires_at = some (some 7000)) ∧
    ((Store.incr 0 "c" []).resp = Response.integer 1 ∧
      kvLookup "c" (Store.incr 0 "c" []).map
        = kvLookup "c" (Store.set 0 "c" "1" none []).map ∧
      (Store.incr 0 "c" []).log = (Store.set 0 "c" "1" none []).log) := by
  have h := (C3_incr_set_equiv 5 "k" [("k", Entry.string "41" (some 7000))]).1
    (Entry.string "41" (some 7000)) "41" 41 rfl rfl rfl (by decide) (by decide)
  have h2 := (C3_incr_set_equiv 0 "c" []).2 (Or.inl rfl)
  exact ⟨⟨h.1, h.2.2⟩, h2.1, h2.2.1 "c", h2.2.2⟩

/-! ### C4: drained containers are removed -/

/-- C4: empty containers are unobservable.  When `LPOP` pops the last element
of a live queue, or `SREM` removes every member of a live set, the key is
physically removed from the mapping and a subsequent `EXISTS` returns 0. -/
theorem C4_empty_containers_removed (now : Nat) (k : String) (m : KvMap) :
    (∀ e v, kvLookup k m = some e → e.is_expired now = false →
      e.value = RedisValue.list [v] →
      kvLookup k (Store.lpop now k m).map = none ∧
      (Store.existsKey now k (Store.lpop now k m).map).resp = .integer 0) ∧
    (∀ e s ms, kvLookup k m = some e → e.is_expired now = false →
      e.value = RedisValue.set s → (∀ x ∈ s, x ∈ ms) →
      kvLookup k (Store.srem now k ms m).map = none ∧
      (Store.existsKey now k (Store.srem now k ms m).map).resp = .integer 0) := by
  constructor
  · intro e v he hex hval
    have hmap : (Store.lpop now k m).map = kvRemove k m := by
      simp [Store.lpop, he, hex, hval]
    rw [hmap]
    exact ⟨kvLookup_kvRemove_self k m,
      by simp [Store.existsKey, kvLookup_kvRemove_self]⟩
  · intro e s ms he hex hval hsub
    have hempty : s \ ms.toFinset = ∅ := by
      rw [Finset.sdiff_eq_empty_iff_subset]
      intro x hx
      exact List.mem_toFinset.mpr (hsub x hx)
    have hmap : (Store.srem now k ms m).map = kvRemove k m := by
      simp [Store.srem, he, hex, hval, srem_fold_set, hempty]
    rw [hmap]
    exact ⟨kvLookup_kvRemove_self k m,
      by simp [Store.existsKey, kvLookup_kvRemove_self]⟩

/-- C4 witness: popping the only element of queue `q` removes the key and
`EXISTS q` = 0; removing both members of set `s` removes the key and
`EXISTS s` = 0. -/
theorem C4_empty_containers_removed_witness :
    (kvLookup "q" (Store.lpop 0 "q" [("q", ⟨RedisValue.list ["a"], none⟩)]).map = none ∧
      (Store.existsKey 0 "q"
        (Store.lpop 0 "q" [("q", ⟨RedisValue.list ["a"], none⟩)]).map).resp
          = Response.integer 0) ∧
    (kvLookup "s" (Store.srem 0 "s" ["x", "y"]
        [("s", ⟨RedisValue.set {"x", "y"}, none⟩)]).map = none ∧
      (Store.existsKey 0 "s" (Store.srem 0 "s" ["x", "y"]
        [("s", ⟨RedisValue.set {"x", "y"}, none⟩)]).map).resp = Response.integer 0) := by
  refine ⟨(C4_empty_containers_removed 0 "q" _).1 _ "a" rfl rfl rfl, ?_⟩
  exact (C4_empty_containers_removed 0 "s" _).2 _ {"x", "y"} ["x", "y"]
    rfl rfl rfl (by decide)

/-! ### C5: DEL semantics and its log record -/

/-- C5: `DEL k` removes the key and returns 1 when it is live (logging a
`del` record exactly then), removes the key and returns 0 when it is present
but expired (no record), and returns 0 on an absent key (no record). -/
theorem C5_del (now : Nat) (k : String) (m : KvMap) :
    (∀ e, kvLookup k m = some e → e.is_expired now = false →
      (Store.del now k m).resp = .integer 1 ∧
      kvLookup k (Store.del now k m).map = none ∧
      (Store.del now k m).log = [⟨"del", k, none, none⟩]) ∧
    (∀ e, kvLookup k m = some e → e.is_expired now = true →
      (Store.del now k m).resp = .integer 0 ∧
      kvLookup k (Store.del now k m).map = none ∧
      (Store.del now k m).log = []) ∧
    (kvLookup k m = none →
      (Store.del now k m).resp = .integer 0 ∧
      (Store.del now k m).map = m ∧
      (Store.del now k m).log = []) := by
  refine ⟨?_, ?_, ?_⟩
  · intro e he hex
    simp [Store.del, he, hex, kvLookup_kvRemove_self]
  · intro e he hex
    simp [Store.del, he, hex, kvLookup_kvRemove_self]
  · intro hnone
    simp [Store.del, hnone]

/-- C5 witness: deleting a live key returns 1 and logs the `del` record;
deleting an expired key returns 0 with no record; deleting an absent key
returns 0 with no record. -/
theorem C5_del_witness :
    ((Store.del 0 "k" [("k", Entry.string "v" none)]).resp = Response.integer 1 ∧
      (Store.del 0 "k" [("k", Entry.string "v" none)]).log
        = [⟨"del", "k", none, none⟩]) ∧
    ((Store.del 10 "k" [("k", Entry.string "v" (some 3))]).resp = Response.integer 0 ∧
      (Store.del 10 "k" [("k", Entry.string "v" (some 3))]).log = []) ∧
    ((Store.del 0 "k" []).resp = Response.integer 0 ∧ (Store.del 0 "k" []).log = []) := by
  have h1 := (C5_del 0 "k" [("k", Entry.string "v" none)]).1 _ rfl rfl
  have h2 := (C5_del 10 "k" [("k", Entry.string "v" (some 3))]).2.1 _ rfl rfl
  have h3 := (C5_del 0 "k" []).2.2 rfl
  exact ⟨⟨h1.1, h1.2.2⟩, ⟨h2.1, h2.2.2⟩, h3.1, h3.2.2⟩

/-! ### C6: AOF replay -/

/-- Follows the words of the replay specification, as a single step applied in
arrival order: a `set` record that carries a value inserts a scalar entry,
replacing any prior value for that key; a `del` record removes the key;
records with any other operation name are ignored; `set` records whose value
field is absent are ignored.  (The expiration instant is re-established from
the recorded millisecond stamp, as elsewhere in the spec.) -/
def replayStepSpec (m : KvMap) (r : LogEntry) : KvMap :=
  if r.op = "set" ∧ r.value ≠ none then
    kvInsert r.key
      (Entry.string (r.value.getD "")
        (r.expires_at_ms.map (fun ms => (ms % (2 ^ 64 : Int)).toNat))) m
  else if r.op = "del" then kvRemove r.key m
  else m

/-- C6: replaying any sequence of log records into an empty mapping agrees
with the specification's replay semantics record for record. -/
theorem C6_replay (es : List LogEntry) :
    Store.load_from_aof es [] = es.foldl replayStepSpec [] := by
  have step : ∀ (m : KvMap) (e : LogEntry), Store.applyLog m e = replayStepSpec m e := by
    intro m e
    unfold Store.applyLog replayStepSpec
    by_cases hset : e.op = "set"
    · cases hv : e.value with
      | some v => simp [hset, hv]
      | none => simp [hset, hv]
    · by_cases hdel : e.op = "del" <;> simp [hset, hdel]
  have hfun : Store.applyLog = replayStepSpec :=
    funext fun m => funext fun e => step m e
  unfold Store.load_from_aof
  rw [hfun]

/-! ### C7: SADD adds the new members and counts them -/

/-- C7: for every member list passed to `SADD k` on an absent key, an expired
key, or a live member-set key, the stored set afterwards is the prior set
(empty in the first two cases) united with the set underlying the arguments,
the returned integer is the number of argument members not already present
(duplicates within the call counted once), and the expiration is none for a
fresh or reset entry and untouched for a live one. -/
theorem C7_sadd (now : Nat) (k : String) (ms : List String) (m : KvMap) :
    (kvLookup k m = none →
      (Store.sadd now k ms m).resp = .integer ((ms.toFinset).card : Int) ∧
      kvLookup k (Store.sadd now k ms m).map = some ⟨.set ms.toFinset, none⟩) ∧
    (∀ e, kvLookup k m = some e → e.is_expired now = true →
      (Store.sadd now k ms m).resp = .integer ((ms.toFinset).card : Int) ∧
      kvLookup k (Store.sadd now k ms m).map = some ⟨.set ms.toFinset, none⟩) ∧
    (∀ e s, kvLookup k m = some e → e.is_expired now = false →
      e.value = RedisValue.set s →
      (Store.sadd now k ms m).resp = .integer ((ms.toFinset \ s).card : Int) ∧
      kvLookup k (Store.sadd now k ms m).map
        = some ⟨.set (s ∪ ms.toFinset), e.expires_at⟩) := by
  refine ⟨?_, ?_, ?_⟩
  · intro hnone
    simp [Store.sadd, hnone, Entry.setE, sadd_fold_set, sadd_fold_count,
      kvLookup_kvInsert_self]
  · intro e he hex
    simp [Store.sadd, he, hex, Entry.setE, sadd_fold_set, sadd_fold_count,
      kvLookup_kvInsert_self]
  · intro e s he hex hval
    simp [Store.sadd, he, hex, hval, sadd_fold_set, sadd_fold_count,
      kvLookup_kvInsert_self]

/-- C7 witness: `SADD s a b a` on the empty store returns 2 and stores
`{a, b}`; `SADD s a b` on a live set `{a}` returns 1 and stores `{a, b}`. -/
theorem C7_sadd_witness :
    ((Store.sadd 0 "s" ["a", "b", "a"] []).resp = Response.integer 2 ∧
      kvLookup "s" (Store.sadd 0 "s" ["a", "b", "a"] []).map
        = some ⟨RedisValue.set (["a", "b", "a"].toFinset), none⟩) ∧
    ((Store.sadd 0 "s" ["a", "b"] [("s", ⟨RedisValue.set {"a"}, none⟩)]).resp
        = Response.integer 1 ∧
      kvLookup "s" (Store.sadd 0 "s" ["a", "b"]
          [("s", ⟨RedisValue.set {"a"}, none⟩)]).map
        = some ⟨RedisValue.set ({"a"} ∪ ["a", "b"].toFinset), none⟩) := by
  have h1 := (C7_sadd 0 "s" ["a", "b", "a"] []).1 rfl
  have h2 := (C7_sadd 0 "s" ["a", "b"] [("s", ⟨RedisValue.set {"a"}, none⟩)]).2.2
    _ {"a"} rfl rfl rfl
  refine ⟨⟨h1.1.trans (congrArg Response.integer (by decide)), h1.2⟩,
    h2.1.trans (congrArg Response.integer (by decide)), h2.2⟩

/-! ### C8: TTL replies -/

/-- C8: `TTL k` returns -2 when the key is absent, and when it is expired
(also removing it); -1 when the key is live with no expiration; otherwise the
remaining whole seconds, truncated, where the saturating subtraction clamps a
non-positive remaining time to 0 (the reported value is never negative). -/
theorem C8_ttl (now : Nat) (k : String) (m : KvMap) :
    (kvLookup k m = none → (Store.ttl now k m).resp = .integer (-2)) ∧
    (∀ e, kvLookup k m = some e → e.is_expired now = true →
      (Store.ttl now k m).resp = .integer (-2) ∧
      kvLookup k (Store.ttl now k m).map = none) ∧
    (∀ e, kvLookup k m = some e → e.is_expired now = false → e.expires_at = none →
      (Store.ttl now k m).resp = .integer (-1)) ∧
    (∀ e exp, kvLookup k m = some e → e.is_expired now = false →
      e.expires_at = some exp →
      (Store.ttl now k m).resp = .integer (((exp - now) / 1000 : Nat) : Int) ∧
      (0 : Int) ≤ (((exp - now) / 1000 : Nat) : Int)) := by
  refine ⟨?_, ?_, ?_, ?_⟩
  · intro hnone
    simp [Store.ttl, hnone]
  · intro e he hex
    simp [Store.ttl, he, hex, kvLookup_kvRemove_self]
  · intro e he hex hnoexp
    simp [Store.ttl, he, hex, hnoexp]
  · intro e exp he hex hexp
    constructor
    · simp [Store.ttl, he, hex, hexp]
    · exact Int.natCast_nonneg _

/-- C8 witness: absent key gives -2; an expired key gives -2 and is removed;
no expiration gives -1; 2500 milliseconds of remaining life reports 2 whole
seconds; a key expiring exactly now reports 0, not a negative number. -/
theorem C8_ttl_witness :
    (Store.ttl 0 "k" []).resp = Response.integer (-2) ∧
    ((Store.ttl 10 "k" [("k", Entry.string "v" (some 3))]).resp
        = Response.integer (-2) ∧
      kvLookup "k" (Store.ttl 10 "k" [("k", Entry.string "v" (some 3))]).map = none) ∧
    (Store.ttl 0 "k" [("k", Entry.string "v" none)]).resp = Response.integer (-1) ∧
    (Store.ttl 2000 "k" [("k", Entry.string "v" (some 4500))]).resp
        = Response.integer 2 ∧
    (Store.ttl 2000 "k" [("k", Entry.string "v" (some 2000))]).resp
        = Response.integer 0 := by
  have h1 := (C8_ttl 0 "k" []).1 rfl
  have h2 := (C8_ttl 10 "k" [("k", Entry.string "v" (some 3))]).2.1 _ rfl rfl
  have h3 := (C8_ttl 0 "k" [("k", Entry.string "v" none)]).2.2.1 _ rfl rfl rfl
  have h4 := (C8_ttl 2000 "k" [("k", Entry.string "v" (some 4500))]).2.2.2
    _ 4500 rfl rfl rfl
  have h5 := (C8_ttl 2000 "k" [("k", Entry.string "v" (some 2000))]).2.2.2
    _ 2000 rfl rfl rfl
  exact ⟨h1, h2, h3, h4.1.trans (congrArg Response.integer (by decide)),
    h5.1.trans (congrArg Response.integer (by decide))⟩

/-! ### C9: arity-error `got` counts -/

/-- C9 counterexample: the claim says every recognized command reports
`got = tokens - 1` on an arity violation.  It fails twice.  The `SET` arm
reports the full token count: `SET k` has 2 tokens, so the claim requires
`got = 1`, but the dispatcher answers `got = 2`.  And `PING`, whose arity
rule is exactly one token, is never arity-checked at all: `PING x` has 2
tokens yet the dispatcher answers `PONG`, not a `WrongArguments` error. -/
theorem C9_counterexample :
    ((handle_command 0 [] "SET k").resp
      = Response.error (RedisError.wrongArguments "SET" "at least 3" 2) ∧
      (splitTokens "SET k").length - 1 = 1 ∧ (2 : Nat) ≠ 1) ∧
    ((handle_command 0 [] "PING x").resp = Response.simpleString "PONG" ∧
      (handle_command 0 [] "PING x").resp.isErr = false ∧
      (splitTokens "PING x").length = 2) := by
  exact ⟨⟨rfl, by decide, by decide⟩, rfl, rfl, by decide⟩

/-- C9 (amended): on an arity violation every recognized command except
`SET`, `PING` and `QUIT` reports `got = tokens - 1` (the argument count
excluding the command token); the `SET` arm alone reports `got = tokens`,
the full token count; and `PING` and `QUIT` perform no arity check at all,
answering `PONG` and `BYE` for every token count. -/
theorem C9_arity_errors (now : Nat) (m : KvMap) (input : String)
    (cmd0 : String) (rest : List String)
    (hparts : splitTokens input = cmd0 :: rest) :
    (asciiUpper cmd0 = "GET" → (cmd0 :: rest).length ≠ 2 →
      (handle_command now m input).resp
        = .error (.wrongArguments "GET" "1" ((cmd0 :: rest).length - 1))) ∧
    (asciiUpper cmd0 = "DEL" → (cmd0 :: rest).length ≠ 2 →
      (handle_command now m input).resp
        = .error (.wrongArguments "DEL" "1" ((cmd0 :: rest).length - 1))) ∧
    (asciiUpper cmd0 = "EXISTS" → (cmd0 :: rest).length ≠ 2 →
      (handle_command now m input).resp
        = .error (.wrongArguments "EXISTS" "1" ((cmd0 :: rest).length - 1))) ∧
    (asciiUpper cmd0 = "TTL" → (cmd0 :: rest).length ≠ 2 →
      (handle_command now m input).resp
        = .error (.wrongArguments "TTL" "1" ((cmd0 :: rest).length - 1))) ∧
    (asciiUpper cmd0 = "KEYS" → (cmd0 :: rest).length ≠ 2 →
      (handle_command now m input).resp
        = .error (.wrongArguments "KEYS" "1" ((cmd0 :: rest).length - 1))) ∧
    (asciiUpper cmd0 = "INCR" → (cmd0 :: rest).length ≠ 2 →
      (handle_command now m input).resp
        = .error (.wrongArguments "INCR" "1" ((cmd0 :: rest).length - 1))) ∧
    (asciiUpper cmd0 = "LPOP" → (cmd0 :: rest).length ≠ 2 →
      (handle_command now m input).resp
        = .error (.wrongArguments "LPOP" "1" ((cmd0 :: rest).length - 1))) ∧
    (asciiUpper cmd0 = "LLEN" → (cmd0 :: rest).length ≠ 2 →
      (handle_command now m input).resp
        = .error (.wrongArguments "LLEN" "1" ((cmd0 :: rest).length - 1))) ∧
    (asciiUpper cmd0 = "SCARD" → (cmd0 :: rest).length ≠ 2 →
      (handle_command now m input).resp
        = .error (.wrongArguments "SCARD" "1" ((cmd0 :: rest).length - 1))) ∧
    (asciiUpper cmd0 = "LPUSH" → (cmd0 :: rest).length < 3 →
      (handle_command now m input).resp
        = .error (.wrongArguments "LPUSH" "at least 2" ((cmd0 :: rest).length - 1))) ∧
    (asciiUpper cmd0 = "SADD" → (cmd0 :: rest).length < 3 →
      (handle_command now m input).resp
        = .error (.wrongArguments "SADD" "at least 2" ((cmd0 :: rest).length - 1))) ∧
    (asciiUpper cmd0 = "SREM" → (cmd0 :: rest).length < 3 →
      (handle_command now m input).resp
        = .error (.wrongArguments "SREM" "at least 2" ((cmd0 :: rest).length - 1))) ∧
    (asciiUpper cmd0 = "SET" → (cmd0 :: rest).length < 3 →
      (handle_command now m input).resp
        = .error (.wrongArguments "SET" "at least 3" ((cmd0 :: rest).length))) ∧
    (asciiUpper cmd0 = "PING" →
      (handle_command now m input).resp = .simpleString "PONG") ∧
    (asciiUpper cmd0 = "QUIT" →
      (handle_command now m input).resp = .simpleString "BYE") := by
  have hping : asciiUpper cmd0 = "PING" →
      (handle_command now m input).resp = .simpleString "PONG" := by
    intro hcmd
    simp [handle_command, hparts, hcmd]
  have hquit : asciiUpper cmd0 = "QUIT" →
      (handle_command now m input).resp = .simpleString "BYE" := by
    intro hcmd
    simp [handle_command, hparts, hcmd]
  refine ⟨?_, ?_, ?_, ?_, ?_, ?_, ?_, ?_, ?_, ?_, ?_, ?_, ?_, hping, hquit⟩ <;>
    intro hcmd hlen <;>
    simp only [List.length_cons] at hlen <;>
    simp [handle_command, hparts, hcmd] <;>
    (first
      | rw [if_pos hlen]
      | rw [if_neg (by omega)])

/-- C9 witness: `GET` with no argument reports `got = 0` (tokens minus one);
`SET k` reports `got = 2` (the full token count); `PING x` and `QUIT x`
answer `PONG` and `BYE` despite their one-token arity rule. -/
theorem C9_arity_errors_witness :
    (handle_command 0 [] "GET").resp
      = Response.error (RedisError.wrongArguments "GET" "1" 0) ∧
    (handle_command 0 [] "SET k").resp
      = Response.error (RedisError.wrongArguments "SET" "at least 3" 2) ∧
    (handle_command 0 [] "PING x").resp = Response.simpleString "PONG" ∧
    (handle_command 0 [] "QUIT x").resp = Response.simpleString "BYE" := by
  have h1 := (C9_arity_errors 0 [] "GET" "GET" [] rfl).1 rfl (by decide)
  have h2 := (C9_arity_errors 0 [] "SET k" "SET" ["k"] rfl).2.2.2.2.2.2.2.2.2.2.2.2.1
    rfl (by decide)
  have h3 := (C9_arity_errors 0 [] "PING x" "PING" ["x"] rfl).2.2.2.2.2.2.2.2.2.2.2.2.2.1
    rfl
  have h4 := (C9_arity_errors 0 [] "QUIT x" "QUIT" ["x"] rfl).2.2.2.2.2.2.2.2.2.2.2.2.2.2
    rfl
  exact ⟨h1, h2, h3, h4⟩

/-! ### C10: failed operations leave the keyspace untouched -/

/-- C10: error atomicity.  Whenever `GET`, `INCR`, `LPUSH`, `LPOP`, `LLEN`,
`SADD`, `SREM` or `SCARD` answers an error response (`WRONGTYPE` against a
live entry of the wrong kind, or `NotInteger` from `INCR` on a non-integer
scalar), the keyspace is exactly the one before the call. -/
theorem C10_errors_atomic (now : Nat) (k : String) (vs ms : List String) (m : KvMap) :
    ((Store.get now k m).resp.isErr = true → (Store.get now k m).map = m) ∧
    ((Store.incr now k m).resp.isErr = true → (Store.incr now k m).map = m) ∧
    ((Store.lpush now k vs m).resp.isErr = true → (Store.lpush now k vs m).map = m) ∧
    ((Store.lpop now k m).resp.isErr = true → (Store.lpop now k m).map = m) ∧
    ((Store.llen now k m).resp.isErr = true → (Store.llen now k m).map = m) ∧
    ((Store.sadd now k ms m).resp.isErr = true → (Store.sadd now k ms m).map = m) ∧
    ((Store.srem now k ms m).resp.isErr = true → (Store.srem now k ms m).map = m) ∧
    ((Store.scard now k m).resp.isErr = true → (Store.scard now k m).map = m) := by
  refine ⟨?_, ?_, ?_, ?_, ?_, ?_, ?_, ?_⟩ <;> intro h
  · cases hlk : kvLookup k m with
    | none => simp [Store.get, hlk, Response.isErr] at h
    | some e =>
      by_cases hex : e.is_expired now = true
      · simp [Store.get, hlk, hex, Response.isErr] at h
      · cases hval : e.value <;>
          simp [Store.get, hlk, hex, hval, Response.isErr] at h ⊢
  · cases hlk : kvLookup k m with
    | none => simp [Store.incr, hlk, Response.isErr] at h
    | some e =>
      by_cases hex : e.is_expired now = true
      · simp [Store.incr, hlk, hex, Response.isErr] at h
      · cases hval : e.value with
        | str s =>
          cases hp : parseI64 s <;>
            simp [Store.incr, hlk, hex, hval, hp, Response.isErr] at h ⊢
        | _ => simp [Store.incr, hlk, hex, hval, Response.isErr] at h ⊢
  · cases hlk : kvLookup k m with
    | none => simp [Store.lpush, hlk, Entry.listE, Response.isErr] at h
    | some e =>
      by_cases hex : e.is_expired now = true
      · simp [Store.lpush, hlk, hex, Entry.listE, Response.isErr] at h
      · cases hval : e.value <;>
          simp [Store.lpush, hlk, hex, hval, Response.isErr] at h ⊢
  · cases hlk : kvLookup k m with
    | none => simp [Store.lpop, hlk, Response.isErr] at h
    | some e =>
      by_cases hex : e.is_expired now = true
      · simp [Store.lpop, hlk, hex, Response.isErr] at h
      · cases hval : e.value with
        | list l =>
          cases l with
          | nil => simp [Store.lpop, hlk, hex, hval, Response.isErr] at h
          | cons v rest =>
            by_cases hre : rest.isEmpty = true <;>
              simp [Store.lpop, hlk, hex, hval, hre, Response.isErr] at h
        | _ => simp [Store.lpop, hlk, hex, hval, Response.isErr] at h ⊢
  · cases hlk : kvLookup k m with
    | none => simp [Store.llen, hlk, Response.isErr] at h
    | some e =>
      by_cases hex : e.is_expired now = true
      · simp [Store.llen, hlk, hex, Response.isErr] at h
      · cases hval : e.value <;>
          simp [Store.llen, hlk, hex, hval, Response.isErr] at h ⊢
  · cases hlk : kvLookup k m with
    | none => simp [Store.sadd, hlk, Entry.setE, Response.isErr] at h
    | some e =>
      by_cases hex : e.is_expired now = true
      · simp [Store.sadd, hlk, hex, Entry.setE, Response.isErr] at h
      · cases hval : e.value <;>
          simp [Store.sadd, hlk, hex, hval, Response.isErr] at h ⊢
  · cases hlk : kvLookup k m with
    | none => simp [Store.srem, hlk, Response.isErr] at h
    | some e =>
      by_cases hex : e.is_expired now = true
      · simp [Store.srem, hlk, hex, Response.isErr] at h
      · cases hval : e.value with
        | set s =>
          by_cases hse : (ms.foldl (fun (p : Finset String × Nat) mem =>
              if mem ∈ p.1 then (p.1.erase mem, p.2 + 1) else p) (s, 0)).1 = ∅ <;>
            simp [Store.srem, hlk, hex, hval, hse, Response.isErr] at h
        | _ => simp [Store.srem, hlk, hex, hval, Response.isErr] at h ⊢
  · cases hlk : kvLookup k m with
    | none => simp [Store.scard, hlk, Response.isErr] at h
    | some e =>
      by_cases hex : e.is_expired now = true
      · simp [Store.scard, hlk, hex, Response.isErr] at h
      · cases hval : e.value <;>
          simp [Store.scard, hlk, hex, hval, Response.isErr] at h ⊢

/-- C10 witness: `INCR` on the non-integer scalar `x` and `LPUSH` against the
same scalar key both answer errors and leave the keyspace exactly as it
was. -/
theorem C10_errors_atomic_witness :
    (Store.incr 0 "k" [("k", Entry.string "x" none)]).map
      = [("k", Entry.string "x" none)] ∧
    (Store.lpush 0 "k" ["v"] [("k", Entry.string "x" none)]).map
      = [("k", Entry.string "x" none)] := by
  exact ⟨(C10_errors_atomic 0 "k" ["v"] [] [("k", Entry.string "x" none)]).2.1 rfl,
    (C10_errors_atomic 0 "k" ["v"] [] [("k", Entry.string "x" none)]).2.2.1 rfl⟩
